import Mathlib

/-!
Verification of the ShieldAI / SmartAV detection-and-response core.

Shallow embedding of the C++ sources under `src/SmartAV/` into Lean 4.
C++ `float`/`double` values are modelled as exact rationals (`ℚ`);
transcendental library calls (`log1p`, `log2`, `exp`) that have no exact
rational counterpart are passed in as explicit function parameters, so every
definition stays computable and every structural fact holds for the real
functions as a special case.  Filesystem state is modelled as an association
list from path strings to byte lists; Windows-specific calls are modelled at
the level of their observable effect on that state.
-/

set_option linter.unusedVariables false

namespace SmartAV

/-! ## ScanEngine (src/SmartAV/Core/ScanEngine.cpp)

`ScanEngine.h` declares `enum class ThreatLevel { SAFE, LOW, MEDIUM, HIGH,
CRITICAL }` and `enum class DetectionMethod { SIGNATURE, HEURISTIC, AI,
BEHAVIORAL }` together with `struct ThreatInfo`. -/

inductive ThreatLevel where
  | SAFE | LOW | MEDIUM | HIGH | CRITICAL
  deriving DecidableEq, Repr

inductive DetectionMethod where
  | SIGNATURE | HEURISTIC | AI | BEHAVIORAL
  deriving DecidableEq, Repr

/-- The fields of `ThreatInfo` that the scoring steps of
`ScanEngine::ScanFile` assign (path, hash and detail strings are carried
through unchanged and omitted). -/
structure ThreatInfo where
  level : ThreatLevel := .SAFE
  method : DetectionMethod := .SIGNATURE
  confidence : ℚ := 0
  threatName : String := ""
  deriving DecidableEq, Repr

/-- `struct AIDetectionResult` from `AIDetector.cpp` (the `indicators`
vector is carried through unchanged and omitted; `timestamp` is modelled as
a natural-number tick). -/
structure AIDetectionResult where
  isMalicious : Bool := false
  confidence : ℚ := 0
  benignScore : ℚ := 0
  maliciousScore : ℚ := 0
  threatFamily : String := ""
  timestamp : Nat := 0
  inferenceTimeMs : Nat := 0
  isValid : Bool := false
  errorMessage : String := ""
  deriving DecidableEq, Repr

/-- `ScanEngine::RunAIAnalysis`: returns `0.0` for an empty feature vector,
otherwise the detector's `maliciousScore` when the detector result is valid
and `0.0` when it is not.  The `AIDetector::Detect` call's outcome is the
`result` argument. -/
def RunAIAnalysis (features : List ℚ) (result : AIDetectionResult) : ℚ :=
  if features = [] then 0
  else if result.isValid then result.maliciousScore else 0

/-- Steps 4–6 of `ScanEngine::ScanFile` (the path taken by every file that
is neither whitelisted nor signature-matched): combine the heuristic score
with the AI score as `0.4 * heuristic + 0.6 * ai` and map the combined score
to a threat level by the fixed threshold chain.  The source assigns
`result.confidence = finalScore` once after the chain; here that assignment
is inlined into each branch, which produces the same record. -/
def ScanFileCombine (heuristicScore : ℚ) (features : List ℚ)
    (aiResult : AIDetectionResult) : ThreatInfo :=
  let aiScore : ℚ := if features = [] then 0 else RunAIAnalysis features aiResult
  let finalScore : ℚ := heuristicScore * (4/10) + aiScore * (6/10)
  if finalScore ≥ 85/100 then
    { level := .CRITICAL, threatName := "HEUR:Malware.AI.Detected", method := .AI,
      confidence := finalScore }
  else if finalScore ≥ 7/10 then
    { level := .HIGH, threatName := "HEUR:Suspicious.High", method := .AI,
      confidence := finalScore }
  else if finalScore ≥ 5/10 then
    { level := .MEDIUM, threatName := "HEUR:Suspicious.Medium", method := .HEURISTIC,
      confidence := finalScore }
  else if finalScore ≥ 3/10 then
    { level := .LOW, threatName := "HEUR:Suspicious.Low", method := .HEURISTIC,
      confidence := finalScore }
  else
    { level := .SAFE, confidence := finalScore }

/-- The level thresholds exactly as the spec words them (§4.2):
`final ≥ 0.85 → Critical`, `≥ 0.70 → High`, `≥ 0.50 → Medium`,
`≥ 0.30 → Low`, else `Safe`.  Used as the comparison definition for the
refinement part of C1. -/
def specLevelOfScore (finalScore : ℚ) : ThreatLevel :=
  if finalScore ≥ 85/100 then .CRITICAL
  else if finalScore ≥ 7/10 then .HIGH
  else if finalScore ≥ 5/10 then .MEDIUM
  else if finalScore ≥ 3/10 then .LOW
  else .SAFE

/-- C1, counterexample.  The claim says that when the model stage is skipped
(empty feature vector) the combined score equals the heuristic score alone.
In `ScanEngine::ScanFile` the AI score is simply `0.0` in that case and the
weights are applied regardless, so a heuristic score of `1.0` with no
features yields a combined score of `0.4` (level `LOW`), not `1.0`
(level `CRITICAL`). -/
theorem C1_counterexample :
    (ScanFileCombine 1 [] {}).confidence = 4/10 ∧ ((4 : ℚ)/10) ≠ 1 ∧
    (ScanFileCombine 1 [] {}).level = ThreatLevel.LOW ∧
    ThreatLevel.LOW ≠ ThreatLevel.CRITICAL := by
  refine ⟨by norm_num [ScanFileCombine, RunAIAnalysis], by norm_num,
    by norm_num [ScanFileCombine, RunAIAnalysis], by decide⟩

/-- C1, amended.  For every file that is neither whitelisted nor
signature-matched, the combined score equals `0.4 * heuristic + 0.6 * ai`,
where the AI term is the model malicious score when a feature vector exists
and the detector result is valid, and `0` otherwise (in particular, when the
model stage is skipped the combined score is `0.4 * heuristic`, not the
heuristic score alone); the verdict level is derived from the combined score
by the fixed thresholds `≥ 0.85 → Critical`, `≥ 0.70 → High`,
`≥ 0.50 → Medium`, `≥ 0.30 → Low`, else `Safe`. -/
theorem C1_combiner_and_thresholds (heuristicScore : ℚ) (features : List ℚ)
    (aiResult : AIDetectionResult) :
    (ScanFileCombine heuristicScore features aiResult).confidence
      = (4/10) * heuristicScore + (6/10) * RunAIAnalysis features aiResult
    ∧ (ScanFileCombine heuristicScore features aiResult).level
      = specLevelOfScore ((ScanFileCombine heuristicScore features aiResult).confidence) := by
  have hconf : (ScanFileCombine heuristicScore features aiResult).confidence
      = heuristicScore * (4/10)
        + (if features = [] then 0 else RunAIAnalysis features aiResult) * (6/10) := by
    simp only [ScanFileCombine]
    split_ifs <;> rfl
  constructor
  · rw [hconf]
    by_cases hf : features = []
    · simp only [hf, ite_true, RunAIAnalysis]; ring
    · simp only [hf, ite_false]; ring
  · rw [hconf]
    simp only [ScanFileCombine, specLevelOfScore]
    split_ifs <;> simp_all

/-! ## FeatureExtractor (src/SmartAV/Core/FeatureExtractor.cpp)

Transcendental standard-library calls (`std::log1p`, `std::log2`) have no
exact rational counterpart; they are collected in a `MathOps` parameter so
that every structural theorem below holds for the real functions as a
special case. -/

/-- The transcendental functions used by the extractor, passed explicitly. -/
structure MathOps where
  log1p : ℚ → ℚ
  log2 : ℚ → ℚ

/-- `enum class FeatureType` (FeatureExtractor.h). -/
inductive FeatureType where
  | PE_STATIC | MEMORY_DUMP | BEHAVIORAL | NETWORK_FLOW | HYBRID
  deriving DecidableEq, Repr

/-- `struct ExtractionConfig` (FeatureExtractor.h); the fields that the
memory-extraction path reads. -/
structure ExtractionConfig where
  vectorSize : Nat := 512
  useStringFeatures : Bool := true
  normalize : Bool := true
  maxStrings : Nat := 1000
  deriving DecidableEq, Repr

/-- `struct FeatureVector` (FeatureExtractor.h).  `featureNames` is unused
by the extraction path and omitted; `originalFeatureCount` is read from a
moved-from `std::vector` in the source (unspecified value) and omitted. -/
structure FeatureVector where
  data : List ℚ := []
  type : FeatureType := .PE_STATIC
  isValid : Bool := false
  errorMessage : String := ""
  deriving DecidableEq, Repr

/-- `struct FileStatistics` (FeatureExtractor.h). -/
structure FileStatistics where
  fileSize : Nat := 0
  entropy : ℚ := 0
  byteHistogram : List Nat := []
  printableStrings : Nat := 0
  suspiciousStrings : Nat := 0
  stringFrequencies : List (String × Nat) := []

/-- The fields of `struct PEAdvancedFeatures` that
`FeatureExtractor::ConvertPEToFeatures` reads. -/
structure PEAdvancedFeatures where
  Machine : Nat := 0
  NumberOfSections : Nat := 0
  Characteristics : Nat := 0
  Subsystem : Nat := 0
  Magic : Nat := 0
  DllCharacteristics : Nat := 0
  SizeOfCode : Nat := 0
  SizeOfInitializedData : Nat := 0
  SizeOfImage : Nat := 0
  sectionNames : List String := []
  sectionVirtualSizes : List ℚ := []
  sectionRawSizes : List ℚ := []
  importedDLLs : List String := []
  importedFunctions : List String := []
  totalImports : Nat := 0

/-- `FeatureExtractor::s_suspiciousKeywords`. -/
def s_suspiciousKeywords : List String :=
  ["CreateRemoteThread", "WriteProcessMemory", "VirtualAllocEx",
   "OpenProcess", "ReadProcessMemory", "NtUnmapViewOfSection",
   "SetWindowsHookEx", "GetAsyncKeyState", "GetForegroundWindow",
   "URLDownloadToFile", "WinExec", "ShellExecute", "CreateProcess",
   "cmd.exe", "powershell.exe", "regsvr32.exe", "mshta.exe",
   "WSASocket", "connect", "bind", "listen", "recv", "send",
   "InternetOpen", "InternetConnect", "HttpSendRequest",
   "CreateFileMapping", "MapViewOfFile", "RtlCreateUserThread",
   "NtCreateThreadEx", "QueueUserAPC", "SetThreadContext"]

/-- `s.find(pat) != std::string::npos` for a non-empty pattern. -/
def containsSubstring (s pat : String) : Bool :=
  (s.splitOn pat).length ≠ 1

/-- `*std::max_element` over a list, with the head as the seed (the C++
call is only ever evaluated on non-empty ranges). -/
def maxElemD (l : List ℚ) : ℚ :=
  l.foldl max (l.headD 0)

/-- `*std::min_element` over a list, with the head as the seed. -/
def minElemD (l : List ℚ) : ℚ :=
  l.foldl min (l.headD 0)

/-- `FeatureExtractor::HashFeature`: FNV-1a over the string's bytes,
with 32-bit wraparound, reduced modulo the bucket count. -/
def HashFeature (s : String) (buckets : Nat) : Nat :=
  let h := s.data.foldl
    (fun h c => ((h ^^^ (c.toNat % 256)) * 16777619) % 2 ^ 32) 2166136261
  h % buckets

/-- One step of `stats.stringFrequencies[currentString]++`: increment an
existing key or insert it with count 1. -/
def bumpFreq (freqs : List (String × Nat)) (s : String) : List (String × Nat) :=
  if (freqs.lookup s).isSome then
    freqs.map (fun p => if p.1 = s then (p.1, p.2 + 1) else p)
  else freqs ++ [(s, 1)]

/-- Byte is ASCII printable (32–126), the predicate of
`FeatureExtractor::ExtractStrings`. -/
def isPrintable (b : Nat) : Bool := 32 ≤ b && b ≤ 126

/-- Flush of a completed run of printable bytes inside
`FeatureExtractor::ExtractStrings`: strings shorter than 4 characters are
dropped; the frequency map only grows while it has fewer than `maxStrings`
entries; a suspicious-keyword hit bumps the suspicious counter. -/
def flushString (cfg : ExtractionConfig) (current : List Nat)
    (acc : FileStatistics) : FileStatistics :=
  if current.length ≥ 4 then
    let s := String.mk (current.map Char.ofNat)
    if acc.stringFrequencies.length < cfg.maxStrings then
      { acc with
        stringFrequencies := bumpFreq acc.stringFrequencies s
        printableStrings := acc.printableStrings + 1
        suspiciousStrings :=
          if s_suspiciousKeywords.any (fun k => containsSubstring s k) then
            acc.suspiciousStrings + 1
          else acc.suspiciousStrings }
    else acc
  else acc

/-- Final flush at end of buffer: the source increments
`printableStrings` and the frequency map but performs no suspicious-keyword
check in this tail case. -/
def flushStringFinal (cfg : ExtractionConfig) (current : List Nat)
    (acc : FileStatistics) : FileStatistics :=
  if current.length ≥ 4 then
    let s := String.mk (current.map Char.ofNat)
    if acc.stringFrequencies.length < cfg.maxStrings then
      { acc with
        stringFrequencies := bumpFreq acc.stringFrequencies s
        printableStrings := acc.printableStrings + 1 }
    else acc
  else acc

/-- The loop of `FeatureExtractor::ExtractStrings`. -/
def extractStringsLoop (cfg : ExtractionConfig) :
    List Nat → List Nat → FileStatistics → FileStatistics
  | [], current, acc => flushStringFinal cfg current acc
  | b :: rest, current, acc =>
    if isPrintable b then extractStringsLoop cfg rest (current ++ [b]) acc
    else extractStringsLoop cfg rest [] (flushString cfg current acc)

/-- `FeatureExtractor::ExtractStrings`. -/
def ExtractStrings (cfg : ExtractionConfig) (data : List Nat)
    (acc : FileStatistics) : FileStatistics :=
  extractStringsLoop cfg data [] acc

/-- `FeatureExtractor::CalculateEntropy`:
`-Σ p_i log2 p_i` over the 256 byte frequencies, skipping empty buckets. -/
def CalculateEntropy (ops : MathOps) (data : List Nat) : ℚ :=
  if data.length = 0 then 0
  else
    ((List.range 256).map (fun i =>
      let freq := data.count i
      if freq > 0 then
        (let p : ℚ := (freq : ℚ) / (data.length : ℚ);
          -(p * ops.log2 p))
      else 0)).sum

/-- `FeatureExtractor::CalculateBufferStatistics`: histogram, entropy and
string statistics; fails only on a null/empty buffer (checked by the
caller before this point). -/
def CalculateBufferStatistics (cfg : ExtractionConfig) (ops : MathOps)
    (data : List Nat) : FileStatistics :=
  let base : FileStatistics :=
    { fileSize := data.length
      byteHistogram := (List.range 256).map (fun i => data.count i)
      entropy := CalculateEntropy ops data }
  ExtractStrings cfg data base

/-- `FeatureExtractor::StringsToFeatures` with `bucketCount` buckets: the
source adds each string's count into its hash bucket and then divides by
the maximum bucket value; the per-bucket accumulation is expressed here as
a per-index sum over the matching keys. -/
def StringsToFeatures (freqs : List (String × Nat)) (bucketCount : Nat) :
    List ℚ :=
  let buckets : List ℚ := (List.range bucketCount).map (fun i =>
    ((freqs.filter (fun p => HashFeature p.1 bucketCount = i)).map
      (fun p => (p.2 : ℚ))).sum)
  let maxCount := maxElemD buckets
  if maxCount > 0 then buckets.map (fun b => b / maxCount) else buckets

/-- `FeatureExtractor::ConvertStatsToFeatures`: 2 scalar features, 16
histogram buckets, 3 string statistics, and (when enabled) 32 hashed
string buckets. -/
def ConvertStatsToFeatures (cfg : ExtractionConfig) (ops : MathOps)
    (stats : FileStatistics) : List ℚ :=
  let histBuckets : List ℚ := (List.range 16).map (fun i =>
    let bucketSum := ((List.range 16).map
      (fun j => stats.byteHistogram.getD (i * 16 + j) 0)).sum
    if stats.fileSize > 0 then (bucketSum : ℚ) / (stats.fileSize : ℚ) else 0)
  [ops.log1p (stats.fileSize : ℚ), stats.entropy / 8]
    ++ histBuckets
    ++ [ops.log1p (stats.printableStrings : ℚ),
        ops.log1p (stats.suspiciousStrings : ℚ),
        if stats.printableStrings > 0 then
          (stats.suspiciousStrings : ℚ) / (stats.printableStrings : ℚ)
        else 0]
    ++ (if cfg.useStringFeatures then
          StringsToFeatures stats.stringFrequencies 32
        else [])

/-- `static_cast<size_t>` of a non-negative float value. -/
def truncToNat (q : ℚ) : Nat := q.floor.toNat

/-- The one-hot section-name flags of
`FeatureExtractor::ConvertPEToFeatures`, emitted in `std::map` key order
(lexicographic): `.aspack`, `.data`, `.pdata`, `.rdata`, `.reloc`,
`.rsrc`, `.text`, `.vmp`, `UPX`; the `UPX` flag is also set by any
section name containing `UPX` or `aspack`. -/
def sectionTypeFlags (names : List String) : List ℚ :=
  let flag (key : String) : ℚ := if names.any (fun n => n = key) then 1 else 0
  let upx : ℚ :=
    if names.any (fun n => n = "UPX")
        || names.any (fun n =>
            containsSubstring n "UPX" || containsSubstring n "aspack") then 1
    else 0
  [flag ".aspack", flag ".data", flag ".pdata", flag ".rdata",
   flag ".reloc", flag ".rsrc", flag ".text", flag ".vmp", upx]

/-- `FeatureExtractor::ConvertPEToFeatures`: 6 header features, 3 size
features, 4 section features, 3 import features and 9 one-hot
section-name flags. -/
def ConvertPEToFeatures (ops : MathOps) (pe : PEAdvancedFeatures) :
    List ℚ :=
  let avgVirtualSize : ℚ :=
    if pe.sectionVirtualSizes ≠ [] then
      pe.sectionVirtualSizes.sum / (pe.sectionVirtualSizes.length : ℚ)
    else 0
  let avgRawSize : ℚ :=
    if pe.sectionVirtualSizes ≠ [] then
      pe.sectionRawSizes.sum / (pe.sectionRawSizes.length : ℚ)
    else 0
  let virtualRawRatio : ℚ :=
    if avgRawSize > 0 then avgVirtualSize / avgRawSize else 0
  [(pe.Machine : ℚ), (pe.NumberOfSections : ℚ), (pe.Characteristics : ℚ),
   (pe.Subsystem : ℚ), if pe.Magic = 0x20b then 1 else 0,
   (pe.DllCharacteristics : ℚ),
   ops.log1p (pe.SizeOfCode : ℚ), ops.log1p (pe.SizeOfInitializedData : ℚ),
   ops.log1p (pe.SizeOfImage : ℚ),
   (pe.sectionNames.length : ℚ),
   ops.log1p (truncToNat avgVirtualSize : ℚ),
   ops.log1p (truncToNat avgRawSize : ℚ),
   min virtualRawRatio 10,
   ops.log1p (pe.importedDLLs.length : ℚ),
   ops.log1p (pe.importedFunctions.length : ℚ),
   ops.log1p (pe.totalImports : ℚ)]
    ++ sectionTypeFlags pe.sectionNames

/-- `FeatureExtractor::NormalizeFeatures`: per-vector min-max
normalization, applied only when `max > min`. -/
def NormalizeFeatures (features : List ℚ) : List ℚ :=
  let minVal := minElemD features
  let maxVal := maxElemD features
  if maxVal > minVal then
    features.map (fun f => (f - minVal) / (maxVal - minVal))
  else features

/-- `FeatureExtractor::ReduceDimensions`: keep the first `targetSize`
features when the list is longer. -/
def ReduceDimensions (features : List ℚ) (targetSize : Nat) : List ℚ :=
  if features.length > targetSize then features.take targetSize else features

/-- `FeatureExtractor::ExtractFromMemory`.  The raw buffer is
`Option (List Nat)`: `none` models a null `BYTE*`.  `parsePE` models
`IsValidPE`/`ParsePEAdvanced`, which reinterpret the Windows
`IMAGE_DOS_HEADER`/`IMAGE_NT_HEADERS` structures from raw memory (a
platform memory-layout concern); `none` means "not a valid PE or the
structural parse failed", in which case the source simply omits the PE
features. -/
def ExtractFromMemory (cfg : ExtractionConfig) (ops : MathOps)
    (parsePE : List Nat → Option PEAdvancedFeatures)
    (data : Option (List Nat)) (ftype : FeatureType) : FeatureVector :=
  match data with
  | none => { type := ftype, isValid := false, errorMessage := "Invalid memory buffer" }
  | some bytes =>
    if bytes.length = 0 then
      { type := ftype, isValid := false, errorMessage := "Invalid memory buffer" }
    else
      let stats := CalculateBufferStatistics cfg ops bytes
      let features := ConvertStatsToFeatures cfg ops stats
      let features :=
        if ftype = .PE_STATIC then
          match parsePE bytes with
          | some pe => features ++ ConvertPEToFeatures ops pe
          | none => features
        else features
      let features :=
        if features.length > cfg.vectorSize then
          ReduceDimensions features cfg.vectorSize
        else if features.length < cfg.vectorSize then
          features ++ List.replicate (cfg.vectorSize - features.length) 0
        else features
      let features := if cfg.normalize then NormalizeFeatures features else features
      { data := features, type := ftype, isValid := true }

/-- The pad-or-truncate step of `ExtractFromMemory` always produces a list
of exactly `n` entries. -/
theorem resize_length (l : List ℚ) (n : Nat) :
    (if l.length > n then ReduceDimensions l n
     else if l.length < n then l ++ List.replicate (n - l.length) 0
     else l).length = n := by
  unfold ReduceDimensions
  split_ifs <;> simp_all [List.length_take] <;> omega

/-- Min-max normalization preserves the vector length. -/
theorem normalizeFeatures_length (l : List ℚ) :
    (NormalizeFeatures l).length = l.length := by
  simp only [NormalizeFeatures]
  split_ifs <;> simp

/-- C2: every extraction from memory either returns a valid vector of
exactly `vectorSize` entries (shorter feature lists are zero-padded,
longer ones truncated before returning) or an `isValid = false` result; a
null or empty buffer always yields `isValid = false`, never a valid
all-zero vector. -/
theorem C2_extract_vector_size (cfg : ExtractionConfig) (ops : MathOps)
    (parsePE : List Nat → Option PEAdvancedFeatures)
    (data : Option (List Nat)) (ftype : FeatureType) :
    ((ExtractFromMemory cfg ops parsePE data ftype).isValid = true →
      (ExtractFromMemory cfg ops parsePE data ftype).data.length = cfg.vectorSize)
    ∧ ((data = none ∨ data = some []) →
      (ExtractFromMemory cfg ops parsePE data ftype).isValid = false) := by
  cases data with
  | none => simp [ExtractFromMemory]
  | some bytes =>
    by_cases hb : bytes.length = 0
    · constructor
      · intro h
        simp [ExtractFromMemory, hb] at h
      · intro _
        simp [ExtractFromMemory, hb]
    · constructor
      · intro _
        simp only [ExtractFromMemory, hb, ite_false]
        split_ifs <;>
          simp_all [normalizeFeatures_length, ReduceDimensions, List.length_take] <;>
          omega
      · rintro (h | h)
        · exact absurd h (by simp)
        · rw [Option.some_inj] at h
          subst h
          simp at hb

/-- C2 witness: a 3-byte buffer with a 4-entry target size yields a valid
vector of exactly 4 entries, and a null buffer yields `isValid = false`. -/
theorem C2_extract_vector_size_witness :
    (ExtractFromMemory
      { vectorSize := 4, useStringFeatures := false, normalize := false }
      ⟨fun _ => 0, fun _ => 0⟩ (fun _ => none)
      (some [1, 2, 3]) FeatureType.MEMORY_DUMP).data.length = 4
    ∧ (ExtractFromMemory
      { vectorSize := 4, useStringFeatures := false, normalize := false }
      ⟨fun _ => 0, fun _ => 0⟩ (fun _ => none)
      none FeatureType.MEMORY_DUMP).isValid = false := by
  constructor
  · exact (C2_extract_vector_size _ _ _ _ _).1 (by simp [ExtractFromMemory])
  · exact (C2_extract_vector_size _ _ _ _ _).2 (Or.inl rfl)

/-! ## AIDetector (src/SmartAV/AI/AIDetector.cpp)

The ONNX inference session is modelled as a function from the (resized)
input vector to the raw model outputs; `none` models an `Ort::Exception`.
`std::exp` is a function parameter (`expf`), and `AIDetector::VectorHash`
(built on the platform-defined `std::hash<float>`) is modelled as an
arbitrary deterministic fingerprint function carried by the detector. -/

/-- `struct AIModelConfig`: the fields the detection path reads. -/
structure AIModelConfig where
  detectionThreshold : ℚ := 3/4
  useCaching : Bool := true
  cacheSize : Nat := 1000
  deriving DecidableEq, Repr

/-- `AIDetector::PerformanceStats`. -/
structure PerformanceStats where
  totalInferences : Nat := 0
  cacheHits : Nat := 0
  errors : Nat := 0
  averageInferenceTimeMs : ℚ := 0
  deriving DecidableEq, Repr

/-- The state of the `AIDetector` singleton: configuration, the primary
and secondary inference sessions, the exponential used by `Softmax`, the
vector fingerprint, the result cache (`m_cache` plus `m_cacheOrder`,
represented as one association list in insertion order, oldest first) and
the statistics counters. -/
structure AIDetector where
  isInitialized : Bool := true
  config : AIModelConfig := {}
  inputSize : Nat := 512
  session : List ℚ → Option (List ℚ)
  secondarySessions : List (List ℚ → Option (List ℚ)) := []
  expf : ℚ → ℚ
  vectorHash : List ℚ → String
  cache : List (String × AIDetectionResult) := []
  stats : PerformanceStats := {}

/-- `AIDetector::UpdateCache`: drop an existing entry for the key, append
the new entry at the back, and if the configured capacity is now exceeded
evict the front (oldest-inserted) entry. -/
def UpdateCache (cacheSize : Nat) (c : List (String × AIDetectionResult))
    (key : String) (result : AIDetectionResult) :
    List (String × AIDetectionResult) :=
  let c1 := if (c.lookup key).isSome then c.eraseP (fun p => p.1 == key) else c
  let c2 := c1 ++ [(key, result)]
  if c2.length > cacheSize then c2.tail else c2

/-- `AIDetector::CheckCache`: a pure lookup; the function body performs no
mutation, so the returned cache state is the input state. -/
def CheckCache (c : List (String × AIDetectionResult)) (key : String) :
    Option AIDetectionResult × List (String × AIDetectionResult) :=
  (c.lookup key, c)

/-- `AIDetector::ValidateInputShape`: non-empty and at most twice the
expected input size (larger inputs are rejected, smaller ones resized). -/
def ValidateInputShape (d : AIDetector) (v : List ℚ) : Bool :=
  decide (0 < v.length ∧ v.length ≤ d.inputSize * 2)

/-- `std::vector::resize(n, 0.0f)`: truncate to `n` or zero-pad to `n`. -/
def resizeTo (n : Nat) (v : List ℚ) : List ℚ :=
  v.take n ++ List.replicate (n - v.length) 0

/-- `AIDetector::Softmax`: shift by the maximum element, exponentiate,
and normalize by the sum. -/
def Softmax (expf : ℚ → ℚ) (logits : List ℚ) : List ℚ :=
  let maxLogit := maxElemD logits
  let probs := logits.map (fun logit => expf (logit - maxLogit))
  let sumExp := probs.sum
  probs.map (fun p => p / sumExp)

/-- `AIDetector::ClassifyThreatFamily` (the `features` argument is unused
by the source body). -/
def ClassifyThreatFamily (score : ℚ) (features : List ℚ) : String :=
  if score > 95/100 then "Trojan.Win32.Severe"
  else if score > 9/10 then "Ransom.Win32.Crypto"
  else if score > 85/100 then "Backdoor.Win32.Remote"
  else if score > 8/10 then "Spyware.Win32.InfoStealer"
  else "HEUR:Trojan.Win32.Generic"

/-- `AIDetector::ProcessOutput`: with at least two classes, apply softmax
and read `probs[0]`/`probs[1]` as benign/malicious; with exactly one
output treat it as the malicious probability directly. -/
def ProcessOutput (threshold : ℚ) (expf : ℚ → ℚ) (output : List ℚ) :
    AIDetectionResult :=
  if output.length ≥ 2 then
    let probs := Softmax expf output
    let benign := probs.getD 0 0
    let malicious := probs.getD 1 0
    let isMal : Bool := decide (malicious > threshold)
    { isValid := true, benignScore := benign, maliciousScore := malicious,
      confidence := max benign malicious, isMalicious := isMal,
      threatFamily := if isMal then ClassifyThreatFamily malicious output else "" }
  else if output.length = 1 then
    let mal := output.getD 0 0
    { isValid := true, maliciousScore := mal, benignScore := 1 - mal,
      confidence := max mal (1 - mal),
      isMalicious := decide (mal > threshold) }
  else { isValid := true }

/-- `AIDetector::RunInference`: resize the input, run the session, process
the outputs; an `Ort::Exception` yields an invalid result and bumps the
error counter. -/
def RunInference (d : AIDetector) (v : List ℚ) :
    AIDetectionResult × AIDetector :=
  match d.session (resizeTo d.inputSize v) with
  | some outputs =>
    (ProcessOutput d.config.detectionThreshold d.expf outputs, d)
  | none =>
    ({ isValid := false, errorMessage := "ONNX Error" },
     { d with stats := { d.stats with errors := d.stats.errors + 1 } })

/-- `AIDetector::RunEnsembleInference`: the source pushes only the primary
model's result into `results` (the secondary-model loop is an unexecuted
TODO), then averages malicious/benign scores over `results`, flips the
`majorityMalicious` flag per malicious result (an XOR toggle that the
final verdict never reads), and takes the family from `results[0]`. -/
def RunEnsembleInference (d : AIDetector) (v : List ℚ) :
    AIDetectionResult × AIDetector :=
  let (r0, d1) := RunInference d v
  let results : List AIDetectionResult := [r0]
  let sumMal := (results.map (fun r => r.maliciousScore)).sum
  let sumBen := (results.map (fun r => r.benignScore)).sum
  let majorityMalicious :=
    results.foldl (fun b r => if r.isMalicious then !b else b) false
  let avgMal := sumMal / (results.length : ℚ)
  let avgBen := sumBen / (results.length : ℚ)
  ({ isValid := true, maliciousScore := avgMal, benignScore := avgBen,
     confidence := max avgMal avgBen,
     isMalicious := decide (avgMal > d.config.detectionThreshold),
     threatFamily := (results.headD {}).threatFamily }, d1)

/-- `AIDetector::Detect`: initialization and shape checks, cache lookup,
inference (ensemble when secondary sessions exist), statistics update, and
cache insertion for valid results.  `now` is the entry timestamp and
`elapsedMs` the measured inference time. -/
def Detect (d : AIDetector) (now elapsedMs : Nat) (v : List ℚ) :
    AIDetectionResult × AIDetector :=
  let result0 : AIDetectionResult := { isValid := false, timestamp := now }
  if ¬ d.isInitialized then
    ({ result0 with errorMessage := "Detector not initialized" }, d)
  else if ¬ ValidateInputShape d v then
    ({ result0 with errorMessage := "Invalid input shape" },
     { d with stats := { d.stats with errors := d.stats.errors + 1 } })
  else
    let cacheKey := d.vectorHash v
    match (if d.config.useCaching then (CheckCache d.cache cacheKey).1 else none) with
    | some cached =>
      (cached,
       { d with stats := { d.stats with cacheHits := d.stats.cacheHits + 1 } })
    | none =>
      let rd :=
        if !d.secondarySessions.isEmpty then RunEnsembleInference d v
        else RunInference d v
      let r := { rd.1 with inferenceTimeMs := elapsedMs }
      let d1 := rd.2
      let total := d1.stats.totalInferences + 1
      let totalTime := d1.stats.averageInferenceTimeMs * ((total : ℚ) - 1)
      let avg := (totalTime + (elapsedMs : ℚ)) / (total : ℚ)
      let d2 := { d1 with stats :=
        { d1.stats with totalInferences := total, averageInferenceTimeMs := avg } }
      let d3 :=
        if d.config.useCaching && r.isValid then
          { d2 with cache := UpdateCache d.config.cacheSize d2.cache cacheKey r }
        else d2
      (r, d3)

/-- The last `n` elements of a list. -/
def lastN (n : Nat) (l : List (String × AIDetectionResult)) :
    List (String × AIDetectionResult) :=
  l.drop (l.length - n)

theorem lookup_eq_none_of_not_mem_keys {l : List (String × AIDetectionResult)}
    {k : String} (h : k ∉ l.map Prod.fst) : l.lookup k = none := by
  induction l with
  | nil => rfl
  | cons a tl ih =>
    simp only [List.map_cons, List.mem_cons, not_or] at h
    rw [List.lookup_cons]
    have : (k == a.1) = false := by
      simp only [beq_eq_false_iff_ne, ne_eq]
      exact h.1
    rw [this]
    exact ih h.2

/-- Inserting a fresh key into a cache that is within capacity slides the
window: the result is the last `n` elements of the old window extended
with the new entry. -/
theorem updateCache_fresh (n : Nat) (c : List (String × AIDetectionResult))
    (k : String) (r : AIDetectionResult)
    (hfresh : k ∉ c.map Prod.fst) (hlen : c.length ≤ n) :
    UpdateCache n c k r = lastN n (c ++ [(k, r)]) := by
  simp only [UpdateCache, lastN]
  rw [lookup_eq_none_of_not_mem_keys hfresh]
  simp only [Option.isSome_none, Bool.false_eq_true, if_false]
  by_cases hc : (c ++ [(k, r)]).length > n
  · rw [if_pos hc, ← List.drop_one]
    congr 1
    simp only [List.length_append, List.length_singleton] at hc ⊢
    omega
  · rw [if_neg hc]
    have h0 : (c ++ [(k, r)]).length - n = 0 := by
      simp only [List.length_append, List.length_singleton] at hc ⊢
      omega
    rw [h0, List.drop_zero]

theorem lastN_length (n : Nat) (l : List (String × AIDetectionResult)) :
    (lastN n l).length = min l.length n := by
  unfold lastN
  rw [List.length_drop, Nat.min_def]
  split_ifs <;> omega

theorem lastN_keys_subset (n : Nat) (l : List (String × AIDetectionResult)) :
    (lastN n l).map Prod.fst ⊆ l.map Prod.fst := by
  unfold lastN
  exact List.map_subset _ (List.drop_subset _ _)

/-- `lastN` absorbs a previous `lastN` on the left of an append. -/
theorem lastN_append_absorb (n : Nat) (l xs : List (String × AIDetectionResult)) :
    lastN n (lastN n l ++ xs) = lastN n (l ++ xs) := by
  unfold lastN
  have hd : l.length - n ≤ l.length := Nat.sub_le _ _
  have h1 : l.drop (l.length - n) ++ xs = (l ++ xs).drop (l.length - n) :=
    (List.drop_append_of_le_length hd).symm
  rw [h1, List.drop_drop]
  congr 1
  simp only [List.length_drop, List.length_append]
  omega

/-- Folding fresh, pairwise-distinct keys into a within-capacity cache
yields exactly the last `n` of the combined insertion sequence. -/
theorem foldl_updateCache_fresh (n : Nat) (f : String → AIDetectionResult) :
    ∀ (ks : List String) (c : List (String × AIDetectionResult)),
      ks.Nodup → (∀ k ∈ ks, k ∉ c.map Prod.fst) → c.length ≤ n →
      ks.foldl (fun acc k => UpdateCache n acc k (f k)) c
        = lastN n (c ++ ks.map (fun k => (k, f k))) := by
  intro ks
  induction ks with
  | nil =>
    intro c _ _ hlen
    unfold lastN
    simp only [List.map_nil, List.append_nil, List.foldl_nil]
    have : c.length - n = 0 := by omega
    rw [this, List.drop_zero]
  | cons k ks ih =>
    intro c hnd hfresh hlen
    simp only [List.foldl_cons]
    rw [updateCache_fresh n c k (f k) (hfresh k (List.mem_cons_self k ks)) hlen]
    have hnd' : ks.Nodup := (List.nodup_cons.mp hnd).2
    have hkk : k ∉ ks := (List.nodup_cons.mp hnd).1
    have hfresh' : ∀ k' ∈ ks, k' ∉ (lastN n (c ++ [(k, f k)])).map Prod.fst := by
      intro k' hk' hmem
      have := lastN_keys_subset n (c ++ [(k, f k)]) hmem
      simp only [List.map_append, List.map_cons, List.map_nil,
        List.mem_append, List.mem_cons, List.not_mem_nil] at this
      rcases this with h | h
      · exact hfresh k' (List.mem_cons_of_mem _ hk') h
      · rcases h with h | h
        · exact hkk (h ▸ hk')
        · exact h
    have hlen' : (lastN n (c ++ [(k, f k)])).length ≤ n := by
      rw [lastN_length]; omega
    rw [ih _ hnd' hfresh' hlen', lastN_append_absorb]
    congr 1
    simp [List.append_assoc]

/-- `UpdateCache` never leaves the cache above capacity when it was within
capacity before the insertion. -/
theorem updateCache_length_le (n : Nat) (c : List (String × AIDetectionResult))
    (k : String) (r : AIDetectionResult) (h : c.length ≤ n) :
    (UpdateCache n c k r).length ≤ n := by
  simp only [UpdateCache]
  set c1 := if (c.lookup k).isSome then c.eraseP (fun p => p.1 == k) else c with hc1
  have h1 : c1.length ≤ c.length := by
    rw [hc1]
    split_ifs
    · exact (List.eraseP_sublist c).length_le
    · exact le_refl _
  by_cases h2 : (c1 ++ [(k, r)]).length > n
  · rw [if_pos h2]
    simp only [List.length_tail, List.length_append, List.length_singleton] at h2 ⊢
    omega
  · rw [if_neg h2]
    simp only [List.length_append, List.length_singleton] at h2 ⊢
    omega

/-- C3: the detection-result cache is a FIFO of bounded size: an insertion
never leaves more than `cacheSize` entries; at capacity the oldest-inserted
(front) entry is evicted; a lookup leaves the cache (and hence the eviction
order) unchanged; and inserting `cacheSize + k` distinct fingerprints into
an empty cache leaves exactly the last `cacheSize` of them — the `(k+1)`-th
through `(cacheSize+k)`-th inserted — in insertion order. -/
theorem C3_cache_fifo_bound (n kk : Nat) (ks : List String)
    (f : String → AIDetectionResult)
    (hnd : ks.Nodup) (hlen : ks.length = n + kk) :
    ((ks.foldl (fun c k => UpdateCache n c k (f k)) []).map Prod.fst = ks.drop kk)
    ∧ (ks.foldl (fun c k => UpdateCache n c k (f k)) []).length = n
    ∧ (∀ c key r, c.length ≤ n → (UpdateCache n c key r).length ≤ n)
    ∧ (∀ c key, (CheckCache c key).2 = c) := by
  have hfold := foldl_updateCache_fresh n f ks [] hnd (by simp) (by simp)
  have hdrop : lastN n ([] ++ ks.map (fun k => (k, f k)))
      = (ks.drop kk).map (fun k => (k, f k)) := by
    unfold lastN
    simp only [List.nil_append, List.length_map, hlen]
    have hkk : n + kk - n = kk := by omega
    rw [hkk, List.map_drop]
  refine ⟨?_, ?_, fun c key r h => updateCache_length_le n c key r h,
    fun c key => rfl⟩
  · rw [hfold, hdrop]
    simp [Function.comp_def]
  · rw [hfold, hdrop]
    simp only [List.length_map, List.length_drop, hlen]
    omega

/-- C3 witness: capacity 2, three distinct fingerprints inserted; the
cache ends holding exactly the 2nd and 3rd. -/
theorem C3_cache_fifo_bound_witness :
    ((["a", "b", "c"].foldl
        (fun c k => UpdateCache 2 c k ({} : AIDetectionResult)) []).map Prod.fst
      = ["b", "c"])
    ∧ (["a", "b", "c"].foldl
        (fun c k => UpdateCache 2 c k ({} : AIDetectionResult)) []).length = 2 := by
  have h := C3_cache_fifo_bound 2 1 ["a", "b", "c"] (fun _ => {})
    (by simp) (by simp)
  exact ⟨h.1, h.2.1⟩

theorem lookup_isSome_of_mem_keys {c : List (String × AIDetectionResult)}
    {k : String} (h : k ∈ c.map Prod.fst) : (c.lookup k).isSome := by
  induction c with
  | nil => simp at h
  | cons a tl ih =>
    simp only [List.map_cons, List.mem_cons] at h
    rw [List.lookup_cons]
    by_cases he : k = a.1
    · simp [he]
    · have : (k == a.1) = false := by
        simp only [beq_eq_false_iff_ne, ne_eq]
        exact he
      rw [this]
      exact ih (h.resolve_left he)

theorem keys_eraseP_not_mem {c : List (String × AIDetectionResult)}
    {k : String} (h : (c.map Prod.fst).Nodup) :
    k ∉ (c.eraseP (fun p => p.1 == k)).map Prod.fst := by
  induction c with
  | nil => simp
  | cons a tl ih =>
    simp only [List.map_cons, List.nodup_cons] at h
    by_cases he : a.1 = k
    · rw [List.eraseP_cons_of_pos (by simp [he])]
      rw [← he]
      exact h.1
    · rw [List.eraseP_cons_of_neg (by simp [he])]
      simp only [List.map_cons, List.mem_cons, not_or]
      exact ⟨fun hk => he hk.symm, ih h.2⟩

theorem lookup_append_single (l : List (String × AIDetectionResult))
    (k : String) (r : AIDetectionResult) (h : k ∉ l.map Prod.fst) :
    (l ++ [(k, r)]).lookup k = some r := by
  induction l with
  | nil => simp [List.lookup_cons]
  | cons a tl ih =>
    simp only [List.map_cons, List.mem_cons, not_or] at h
    rw [List.cons_append, List.lookup_cons]
    have : (k == a.1) = false := by
      simp only [beq_eq_false_iff_ne, ne_eq]
      exact h.1
    rw [this]
    exact ih h.2

/-- After inserting a result for a key into a duplicate-free cache of
capacity at least 1, looking the key up finds exactly that result. -/
theorem lookup_updateCache_self (n : Nat) (c : List (String × AIDetectionResult))
    (k : String) (r : AIDetectionResult)
    (hnd : (c.map Prod.fst).Nodup) (hn : 1 ≤ n) :
    (UpdateCache n c k r).lookup k = some r := by
  simp only [UpdateCache]
  set c1 := if (c.lookup k).isSome then c.eraseP (fun p => p.1 == k) else c with hc1
  have hk1 : k ∉ c1.map Prod.fst := by
    rw [hc1]
    split_ifs with hl
    · exact keys_eraseP_not_mem hnd
    · intro hmem
      exact hl (lookup_isSome_of_mem_keys hmem)
  by_cases h2 : (c1 ++ [(k, r)]).length > n
  · rw [if_pos h2]
    match c1, hk1, h2 with
    | [], hk1, h2 =>
      simp only [List.nil_append, List.length_singleton] at h2
      omega
    | x :: xs, hk1, h2 =>
      simp only [List.cons_append, List.tail_cons]
      refine lookup_append_single xs k r ?_
      simp only [List.map_cons, List.mem_cons, not_or] at hk1
      exact hk1.2
  · rw [if_neg h2]
    exact lookup_append_single c1 k r hk1

/-- The inference step of `Detect` (ensemble or single) changes only the
statistics of the detector state. -/
theorem inferStep_state (d : AIDetector) (v : List ℚ) :
    (if !d.secondarySessions.isEmpty then RunEnsembleInference d v
     else RunInference d v).2
      = { d with stats :=
          (if !d.secondarySessions.isEmpty then RunEnsembleInference d v
           else RunInference d v).2.stats } := by
  split_ifs with hsec
  · rcases h : RunInference d v with ⟨r0, d1⟩
    simp only [RunEnsembleInference, h]
    unfold RunInference at h
    rcases hs : d.session (resizeTo d.inputSize v) with _ | outputs <;>
      rw [hs] at h <;> cases h <;> rfl
  · unfold RunInference
    rcases hs : d.session (resizeTo d.inputSize v) with _ | outputs <;> rfl

/-- On a cache hit, `Detect` returns the cached result and bumps only the
cache-hit counter. -/
theorem Detect_hit (d : AIDetector) (now elapsedMs : Nat) (v : List ℚ)
    (cached : AIDetectionResult)
    (hi : d.isInitialized = true) (hs : ValidateInputShape d v = true)
    (hc : d.config.useCaching = true)
    (hhit : d.cache.lookup (d.vectorHash v) = some cached) :
    Detect d now elapsedMs v
      = (cached,
         { d with stats :=
            { d.stats with cacheHits := d.stats.cacheHits + 1 } }) := by
  simp only [Detect, CheckCache, hi, hs, hc, hhit, not_true_eq_false,
    if_false, ite_true, ite_false, Bool.not_true]

/-- On a cache miss with caching enabled, `Detect` runs the inference
step, stamps the measured time, bumps the inference counter and average,
and inserts a valid result into the cache. -/
theorem Detect_miss (d : AIDetector) (now elapsedMs : Nat) (v : List ℚ)
    (hi : d.isInitialized = true) (hs : ValidateInputShape d v = true)
    (hc : d.config.useCaching = true)
    (hmiss : d.cache.lookup (d.vectorHash v) = none) :
    Detect d now elapsedMs v
      = (let rd := if !d.secondarySessions.isEmpty then RunEnsembleInference d v
                   else RunInference d v
         let r := { rd.1 with inferenceTimeMs := elapsedMs }
         let total := rd.2.stats.totalInferences + 1
         let avg := (rd.2.stats.averageInferenceTimeMs * ((total : ℚ) - 1)
                      + (elapsedMs : ℚ)) / (total : ℚ)
         let d2 := { rd.2 with stats :=
            { rd.2.stats with totalInferences := total,
                              averageInferenceTimeMs := avg } }
         (r, if r.isValid then
               { d2 with cache :=
                  UpdateCache d.config.cacheSize d2.cache (d.vectorHash v) r }
             else d2)) := by
  simp only [Detect, CheckCache, hi, hs, hc, hmiss, not_true_eq_false,
    if_false, ite_true, ite_false, Bool.true_and]

/-- C4: with caching enabled, a duplicate-free cache of capacity at least
one, and a valid first result, a second `Detect` call on the same feature
vector returns a result identical to the first call's result, increments
the cache-hit counter by one, and leaves the total-inference counter
unchanged. -/
theorem C4_second_detect_hits_cache (d : AIDetector) (n1 e1 n2 e2 : Nat)
    (v : List ℚ)
    (hc : d.config.useCaching = true)
    (hn : 1 ≤ d.config.cacheSize)
    (hnd : (d.cache.map Prod.fst).Nodup)
    (hvalid : (Detect d n1 e1 v).1.isValid = true) :
    (Detect (Detect d n1 e1 v).2 n2 e2 v).1 = (Detect d n1 e1 v).1
    ∧ (Detect (Detect d n1 e1 v).2 n2 e2 v).2.stats.cacheHits
        = (Detect d n1 e1 v).2.stats.cacheHits + 1
    ∧ (Detect (Detect d n1 e1 v).2 n2 e2 v).2.stats.totalInferences
        = (Detect d n1 e1 v).2.stats.totalInferences := by
  by_cases hi : d.isInitialized = true
  case neg =>
    exfalso
    simp [Detect, hi] at hvalid
  by_cases hsv : ValidateInputShape d v = true
  case neg =>
    exfalso
    simp [Detect, hi, hsv] at hvalid
  rcases hhit : d.cache.lookup (d.vectorHash v) with _ | cached
  · -- first call misses the cache, computes and stores a valid result
    rw [Detect_miss d n1 e1 v hi hsv hc hhit] at hvalid ⊢
    rcases hrd : (if !d.secondarySessions.isEmpty then RunEnsembleInference d v
                  else RunInference d v) with ⟨r0, dmid⟩
    have hdmid : dmid = { d with stats := dmid.stats } := by
      have := inferStep_state d v
      rw [hrd] at this
      exact this
    rw [hrd] at hvalid
    dsimp only at hvalid ⊢
    have hr0 : r0.isValid = true := hvalid
    simp only [hr0, if_true, eq_self_iff_true, ite_true]
    rw [hdmid]
    dsimp only
    rw [Detect_hit]
    · exact ⟨rfl, rfl, rfl⟩
    · exact hi
    · exact hsv
    · exact hc
    · exact lookup_updateCache_self d.config.cacheSize d.cache (d.vectorHash v)
        _ hnd hn
  · -- first call already hits the cache
    rw [Detect_hit d n1 e1 v cached hi hsv hc hhit]
    dsimp only
    rw [Detect_hit]
    · exact ⟨rfl, rfl, rfl⟩
    · exact hi
    · exact hsv
    · exact hc
    · exact hhit

/-- A concrete detector used to witness the cache-idempotence theorem:
a two-class model whose raw output is always `[0, 1]`. -/
def detectWitnessState : AIDetector :=
  { isInitialized := true
    config := { detectionThreshold := 3/4, useCaching := true, cacheSize := 2 }
    inputSize := 2
    session := fun _ => some [0, 1]
    secondarySessions := []
    expf := fun _ => 1
    vectorHash := fun _ => "k"
    cache := []
    stats := {} }

/-- C4 witness: on the concrete detector, the second `Detect` call on the
same vector returns the first call's result, bumps the cache-hit counter,
and leaves the inference counter unchanged. -/
theorem C4_second_detect_hits_cache_witness :
    (Detect (Detect detectWitnessState 5 7 [1, 2]).2 6 8 [1, 2]).1
      = (Detect detectWitnessState 5 7 [1, 2]).1
    ∧ (Detect (Detect detectWitnessState 5 7 [1, 2]).2 6 8 [1, 2]).2.stats.cacheHits
      = (Detect detectWitnessState 5 7 [1, 2]).2.stats.cacheHits + 1
    ∧ (Detect (Detect detectWitnessState 5 7 [1, 2]).2 6 8 [1, 2]).2.stats.totalInferences
      = (Detect detectWitnessState 5 7 [1, 2]).2.stats.totalInferences :=
  C4_second_detect_hits_cache detectWitnessState 5 7 6 8 [1, 2] rfl
    (by norm_num [detectWitnessState]) (by simp [detectWitnessState])
    (by simp [detectWitnessState, Detect, RunInference, ProcessOutput,
      CheckCache, ValidateInputShape, resizeTo, Softmax])

/-! ## C9: ensemble combination -/

/-- The model stage applied to one session, as the spec's ensemble
description prescribes for every loaded session ("run the model stage
against each session").  Matches `RunInference` without the statistics
side effect. -/
def specModelResult (d : AIDetector) (s : List ℚ → Option (List ℚ))
    (v : List ℚ) : AIDetectionResult :=
  match s (resizeTo d.inputSize v) with
  | some outputs => ProcessOutput d.config.detectionThreshold d.expf outputs
  | none => { isValid := false, errorMessage := "ONNX Error" }

/-- Comparison definition written from the spec's words: the arithmetic
mean of the per-model malicious scores over the primary and all secondary
sessions. -/
def specEnsembleMeanMalicious (d : AIDetector) (v : List ℚ) : ℚ :=
  let scores := (specModelResult d d.session v).maliciousScore
    :: d.secondarySessions.map (fun s => (specModelResult d s v).maliciousScore)
  scores.sum / (scores.length : ℚ)

/-- A concrete detector with one secondary session whose score differs
from the primary's: primary single-class output `[1]` (malicious score 1),
secondary single-class output `[0]` (malicious score 0). -/
def ensembleWitnessState : AIDetector :=
  { isInitialized := true
    config := { detectionThreshold := 3/4, useCaching := true, cacheSize := 2 }
    inputSize := 1
    session := fun _ => some [1]
    secondarySessions := [fun _ => some [0]]
    expf := fun _ => 1
    vectorHash := fun _ => "k"
    cache := []
    stats := {} }

/-- C9, counterexample.  With two loaded models whose malicious scores are
1 (primary) and 0 (secondary), the combined malicious score produced by
`RunEnsembleInference` is 1 — the primary's score — while the arithmetic
mean over the per-model scores is 1/2: the source never runs the secondary
sessions (`results` holds only the primary result), so the claimed
averaging over all loaded models does not hold. -/
theorem C9_counterexample :
    (RunEnsembleInference ensembleWitnessState [0]).1.maliciousScore = 1
    ∧ specEnsembleMeanMalicious ensembleWitnessState [0] = 1/2
    ∧ ((1 : ℚ) ≠ 1/2) := by
  refine ⟨?_, ?_, by norm_num⟩
  · norm_num [RunEnsembleInference, RunInference, ProcessOutput,
      ensembleWitnessState, resizeTo]
  · norm_num [specEnsembleMeanMalicious, specModelResult, ProcessOutput,
      ensembleWitnessState, resizeTo]

/-- C9, amended.  The ensemble combination averages over a singleton list
holding only the primary model's result (the secondary-model loop is an
unexecuted TODO in the source), so the combined malicious and benign
scores equal the primary model's scores — not the mean over all loaded
models — and the threat-family label is the primary model's label. -/
theorem C9_ensemble_is_primary_only (d : AIDetector) (v : List ℚ) :
    (RunEnsembleInference d v).1.maliciousScore
      = (RunInference d v).1.maliciousScore
    ∧ (RunEnsembleInference d v).1.benignScore
      = (RunInference d v).1.benignScore
    ∧ (RunEnsembleInference d v).1.threatFamily
      = (RunInference d v).1.threatFamily := by
  rcases h : RunInference d v with ⟨r0, d1⟩
  simp [RunEnsembleInference, h]

/-! ## C10: softmax -/

theorem sum_map_div (l : List ℚ) (c : ℚ) :
    (l.map (fun x => x / c)).sum = l.sum / c := by
  induction l with
  | nil => simp
  | cons x xs ih => simp [add_div, ih]

theorem foldl_max_map_add (c : ℚ) :
    ∀ (l : List ℚ) (a : ℚ),
      (l.map (fun x => x + c)).foldl max (a + c) = l.foldl max a + c := by
  intro l
  induction l with
  | nil => intro a; simp
  | cons x xs ih =>
    intro a
    simp only [List.map_cons, List.foldl_cons]
    rw [max_add_add_right, ih]

/-- Shifting every logit shifts the running maximum (seeded with the head,
as `*std::max_element` behaves on a non-empty range). -/
theorem maxElemD_map_add (l : List ℚ) (c : ℚ) (h : l ≠ []) :
    maxElemD (l.map (fun x => x + c)) = maxElemD l + c := by
  match l, h with
  | x :: xs, _ =>
    simp only [maxElemD, List.map_cons, List.headD_cons, List.foldl_cons]
    rw [max_add_add_right, foldl_max_map_add]

/-- C10, counterexample.  For a three-class output `[0, 0, 0]` the softmax
probabilities are `[1/3, 1/3, 1/3]` and the verdict's benign and malicious
scores (`probs[0]` and `probs[1]`) sum to `2/3`, not `1` — so the claim's
"at least two classes" consequent fails for any output of three or more
classes.  The exponential is instantiated with the constant function `1`,
which agrees with the real `std::exp` at every shifted logit `0 - 0 = 0`
arising for this input, so this is exactly the program's behavior. -/
theorem C10_counterexample :
    (ProcessOutput (3/4) (fun _ => 1) [0, 0, 0]).benignScore
      + (ProcessOutput (3/4) (fun _ => 1) [0, 0, 0]).maliciousScore = 2/3
    ∧ ((2 : ℚ)/3 ≠ 1)
    ∧ ([(0 : ℚ), 0, 0].length ≥ 2) := by
  refine ⟨?_, by norm_num, by norm_num⟩
  norm_num [ProcessOutput, Softmax, maxElemD]

/-- C10, amended.  For every positive exponential and non-empty input,
`Softmax` returns a vector of the same length whose components lie in
`[0, 1]` and sum to `1`, and its output is invariant under adding a
constant to every input (subtracting the maximum changes nothing); the
verdict's benign and malicious scores sum to `1` for a model output with
exactly two classes (for three or more classes they sum to less than 1, as
the remaining probability mass lies in the other classes). -/
theorem C10_softmax_properties (expf : ℚ → ℚ) (hexp : ∀ x, 0 < expf x)
    (logits : List ℚ) (hne : logits ≠ []) (c : ℚ) (threshold : ℚ) :
    (Softmax expf logits).length = logits.length
    ∧ (∀ p ∈ Softmax expf logits, 0 ≤ p ∧ p ≤ 1)
    ∧ (Softmax expf logits).sum = 1
    ∧ Softmax expf (logits.map (fun x => x + c)) = Softmax expf logits
    ∧ (∀ output : List ℚ, output.length = 2 →
        (ProcessOutput threshold expf output).benignScore
          + (ProcessOutput threshold expf output).maliciousScore = 1) := by
  have hsum_pos : ∀ l : List ℚ, l ≠ [] →
      0 < ((l.map (fun x => expf (x - maxElemD l))).sum) := by
    intro l hl
    match l, hl with
    | x :: xs, _ =>
      simp only [List.map_cons, List.sum_cons]
      have h1 : 0 < expf (x - maxElemD (x :: xs)) := hexp _
      have h2 : 0 ≤ (xs.map (fun y => expf (y - maxElemD (x :: xs)))).sum := by
        apply List.sum_nonneg
        intro p hp
        simp only [List.mem_map] at hp
        obtain ⟨y, _, rfl⟩ := hp
        exact le_of_lt (hexp _)
      linarith
  have hsum_eq : ∀ l : List ℚ, l ≠ [] → (Softmax expf l).sum = 1 := by
    intro l hl
    simp only [Softmax]
    rw [sum_map_div]
    exact div_self (ne_of_gt (hsum_pos l hl))
  have hmem : ∀ l : List ℚ, l ≠ [] → ∀ p ∈ Softmax expf l, 0 ≤ p ∧ p ≤ 1 := by
    intro l hl p hp
    simp only [Softmax, List.mem_map] at hp
    obtain ⟨q, ⟨y, hy, rfl⟩, rfl⟩ := hp
    have hS := hsum_pos l hl
    constructor
    · exact div_nonneg (le_of_lt (hexp _)) (le_of_lt hS)
    · rw [div_le_one hS]
      apply List.single_le_sum
      · intro a ha
        obtain ⟨z, _, rfl⟩ := List.mem_map.mp ha
        exact le_of_lt (hexp _)
      · exact List.mem_map_of_mem _ hy
  have hshift : Softmax expf (logits.map (fun x => x + c)) = Softmax expf logits := by
    have hfun : (logits.map (fun x => x + c)).map
        (fun logit => expf (logit - maxElemD (logits.map (fun x => x + c))))
        = logits.map (fun x => expf (x - maxElemD logits)) := by
      rw [maxElemD_map_add logits c hne, List.map_map]
      congr 1
      funext x
      simp only [Function.comp_apply]
      congr 1
      ring
    simp only [Softmax]
    rw [hfun]
  have hgetD2 : ∀ l : List ℚ, l.length = 2 → l.getD 0 0 + l.getD 1 0 = l.sum := by
    intro l hl
    match l, hl with
    | [p, q], _ => simp
  refine ⟨by simp [Softmax], hmem logits hne, hsum_eq logits hne, hshift, ?_⟩
  intro output hlen
  have h2 : output.length ≥ 2 := by omega
  simp only [ProcessOutput, h2, ite_true, if_pos]
  rw [hgetD2 (Softmax expf output) (by simp [Softmax, hlen])]
  refine hsum_eq output ?_
  intro hc0
  rw [hc0] at hlen
  simp at hlen

/-- C10 witness: with a concrete positive exponential, the softmax of
`[1, 2]` sums to 1 and a two-class output's benign and malicious scores
sum to 1. -/
theorem C10_softmax_properties_witness :
    (Softmax (fun _ => 1) [1, 2]).sum = 1
    ∧ (ProcessOutput (3/4) (fun _ => 1) [0, 1]).benignScore
        + (ProcessOutput (3/4) (fun _ => 1) [0, 1]).maliciousScore = 1 :=
  ⟨(C10_softmax_properties (fun _ => 1) (fun _ => by norm_num) [1, 2]
      (by simp) 0 (3/4)).2.2.1,
   (C10_softmax_properties (fun _ => 1) (fun _ => by norm_num) [0, 1]
      (by simp) 0 (3/4)).2.2.2.2 [0, 1] rfl⟩

/-! ## QuarantineManager (src/SmartAV/Security/Quarantine.cpp)

The filesystem is modelled as an association list from path strings to
byte-list contents; Windows path separators are written `/` in the model.
`fs::rename`, `fs::copy_file`, `fs::remove` and `DeleteFileW`/`SecureDelete`
are modelled by their effect on that association list (`SecureDelete`
overwrites before unlinking; its net effect on the final state is removal).
Alternate-data-stream metadata writes and the append-only operation log are
side channels that no claim reads and are omitted. -/

/-- `enum class QuarantineResult`. -/
inductive QuarantineResult where
  | SUCCESS | ALREADY_QUARANTINED | ACCESS_DENIED | FILE_NOT_FOUND
  | ENCRYPTION_FAILED | INSUFFICIENT_SPACE | DATABASE_ERROR | UNKNOWN_ERROR
  deriving DecidableEq, Repr

/-- `struct QuarantineEntry` (timestamps omitted). -/
structure QuarantineEntry where
  quarantineId : String := ""
  originalPath : String := ""
  fileName : String := ""
  quarantinePath : String := ""
  threatName : String := ""
  detectionMethod : String := ""
  threatScore : ℚ := 0
  originalFileSize : Nat := 0
  originalHash : String := ""
  encryptedHash : String := ""
  isEncrypted : Bool := false
  isCompressed : Bool := false
  deriving DecidableEq, Repr

/-- `struct QuarantineConfig` (the fields the isolate/restore paths read). -/
structure QuarantineConfig where
  quarantineRoot : String := "C:/ProgramData/AIAntivirus/Quarantine/"
  encryptFiles : Bool := true
  compressFiles : Bool := true
  secureDeleteOriginal : Bool := false
  deriving DecidableEq, Repr

/-- A flat filesystem: path → byte contents. -/
abbrev FileSystem := List (String × List Nat)

def fsLookup (fs : FileSystem) (p : String) : Option (List Nat) := fs.lookup p

def fsRemove (fs : FileSystem) (p : String) : FileSystem :=
  fs.filter (fun e => !(e.1 == p))

def fsInsert (fs : FileSystem) (p : String) (c : List Nat) : FileSystem :=
  fsRemove fs p ++ [(p, c)]

/-- `std::filesystem::absolute` on this path model: a path starting with
the drive prefix `C:` is already absolute, any other path is resolved
against the current working directory. -/
def isAbsolutePath (p : String) : Bool :=
  match p.data with
  | 'C' :: ':' :: _ => true
  | _ => false

def fsAbsolute (cwd p : String) : String :=
  if isAbsolutePath p then p else cwd ++ p

/-- `fs::path(p).filename()`: the segment after the last separator. -/
def baseName (p : String) : String :=
  String.mk (p.data.foldl (fun acc c => if c = '/' then [] else acc ++ [c]) [])

/-- `fs::path(name).stem()`: the filename without its last extension. -/
def stemOf (name : String) : String :=
  match name.data.reverse.dropWhile (fun c => c != '.') with
  | '.' :: rest => String.mk rest.reverse
  | _ => name

/-- The state of the `QuarantineManager` singleton.  `compressFn` and
`decompressFn` — Modelled from the spec: `CompressFile`/`DecompressFile`
are declared in Quarantine.cpp but defined nowhere in the repository; the
spec says isolate "optionally compresses" and restore "decrypts (and
decompresses)", so they are modelled as a content transform and its
counterpart carried by the store. -/
structure QuarantineManager where
  isInitialized : Bool := true
  config : QuarantineConfig := {}
  entries : List (String × QuarantineEntry) := []
  freeSpace : Nat := 1000000
  compressFn : List Nat → List Nat := id
  decompressFn : List Nat → List Nat := id

/-- `QuarantineManager::CalculateSHA256`: the source is an acknowledged
temporary stub ("Stub مؤقت") that ignores the file entirely and returns
the constant string `"stub_hash"`. -/
def CalculateSHA256 (fs : FileSystem) (path : String) : String := "stub_hash"

/-- `QuarantineManager::FindEntryByOriginalPath`: a linear scan comparing
each record's stored `originalPath` with the raw argument string — no path
resolution is applied to the argument before comparison. -/
def FindEntryByOriginalPath (m : QuarantineManager) (originalPath : String) :
    Option QuarantineEntry :=
  (m.entries.find? (fun e => e.2.originalPath == originalPath)).map Prod.snd

/-- `QuarantineManager::GenerateQuarantinePath`. -/
def GenerateQuarantinePath (m : QuarantineManager) (uuid originalName : String) :
    String :=
  m.config.quarantineRoot ++ uuid ++ "_" ++ stemOf originalName ++ ".quarantine"

/-- `QuarantineManager::QuarantineFile` (isolate).  Checks:
not-initialized, file existence, duplicate record (raw-string path
comparison), disk space (twice the file size).  Then: optional compression
to `<qpath>.tmp` (falling back to a plain copy), encryption — a stub that
copies the bytes — or a rename into the quarantine path, record insertion,
and finally deletion of the original (secure or plain: both remove it). -/
def QuarantineFile (m : QuarantineManager) (fs : FileSystem) (cwd : String)
    (filePath threatName detectionMethod : String) (threatScore : ℚ)
    (uuid : String) : QuarantineResult × QuarantineManager × FileSystem :=
  if ¬ m.isInitialized then (.UNKNOWN_ERROR, m, fs)
  else
    match fsLookup fs (fsAbsolute cwd filePath) with
    | none => (.FILE_NOT_FOUND, m, fs)
    | some content =>
      match FindEntryByOriginalPath m filePath with
      | some _ => (.ALREADY_QUARANTINED, m, fs)
      | none =>
        if ¬ (content.length * 2 ≤ m.freeSpace) then (.INSUFFICIENT_SPACE, m, fs)
        else
          let srcAbs := fsAbsolute cwd filePath
          let fileName := baseName filePath
          let qpath := GenerateQuarantinePath m uuid fileName
          let tempPath := qpath ++ ".tmp"
          let entry : QuarantineEntry :=
            { quarantineId := uuid
              originalPath := srcAbs
              fileName := fileName
              quarantinePath := qpath
              threatName := threatName
              detectionMethod := detectionMethod
              threatScore := threatScore
              originalFileSize := content.length
              originalHash := CalculateSHA256 fs srcAbs }
          let (fs1, isCompressed) :=
            if m.config.compressFiles then
              (fsInsert fs tempPath (m.compressFn content), true)
            else (fsInsert fs tempPath content, false)
          if m.config.encryptFiles then
            -- EncryptFile stub: copy tempPath → qpath, hash the copy
            match fsLookup fs1 tempPath with
            | none => (.ENCRYPTION_FAILED, m, fsRemove fs1 tempPath)
            | some tmpContent =>
              let fs2 := fsInsert fs1 qpath tmpContent
              let fs3 := fsRemove fs2 tempPath
              let entry :=
                { entry with
                  isEncrypted := true
                  isCompressed := isCompressed
                  encryptedHash := CalculateSHA256 fs2 qpath }
              (.SUCCESS, { m with entries := m.entries ++ [(uuid, entry)] },
               fsRemove fs3 srcAbs)
          else
            match fsLookup fs1 tempPath with
            | none => (.UNKNOWN_ERROR, m, fs1)
            | some tmpContent =>
              let fs2 := fsInsert (fsRemove fs1 tempPath) qpath tmpContent
              let entry := { entry with isCompressed := isCompressed }
              (.SUCCESS, { m with entries := m.entries ++ [(uuid, entry)] },
               fsRemove fs2 srcAbs)

/-- The tail of `QuarantineManager::RestoreFile` after the restored bytes
have already been placed at `dest`: recompute the (stub) hash at `dest`,
compare with the recorded hash, and only then remove the record and the
artifact. -/
def restoreVerify (m : QuarantineManager) (quarantineId : String)
    (entry : QuarantineEntry) (fs2 : FileSystem) (dest : String) :
    QuarantineResult × QuarantineManager × FileSystem :=
  if CalculateSHA256 fs2 dest ≠ entry.originalHash then
    (.UNKNOWN_ERROR, m, fs2)
  else
    let fs3 := fsRemove fs2 entry.quarantinePath
    let entriesNew := m.entries.filter (fun e => !(e.1 == quarantineId))
    (.SUCCESS, { m with entries := entriesNew }, fs3)

/-- `QuarantineManager::RestoreFile`: pick the destination (original path
by default, suffixed when occupied), decrypt — a stub copy — to
`<qpath>.restore_tmp` when encrypted, then either decompress to `dest` or
`fs::rename` the temporary (or, unencrypted and uncompressed, the artifact
itself) to `dest`, and only afterwards run the hash comparison
(`restoreVerify`). -/
def RestoreFile (m : QuarantineManager) (fs : FileSystem)
    (quarantineId destinationPath uuidSuffix : String) :
    QuarantineResult × QuarantineManager × FileSystem :=
  match m.entries.lookup quarantineId with
  | none => (.FILE_NOT_FOUND, m, fs)
  | some entry =>
    let dest0 := if destinationPath = "" then entry.originalPath else destinationPath
    let dest :=
      if (fsLookup fs dest0).isSome then dest0 ++ ".restored_" ++ uuidSuffix
      else dest0
    if entry.isEncrypted then
      match fsLookup fs entry.quarantinePath with
      | none => (.ENCRYPTION_FAILED, m, fs)
      | some art =>
        let tempPath := entry.quarantinePath ++ ".restore_tmp"
        let fs1 := fsInsert fs tempPath art
        if entry.isCompressed then
          let fs2 := fsInsert fs1 dest (m.decompressFn art)
          restoreVerify m quarantineId entry (fsRemove fs2 tempPath) dest
        else
          let fs2 := fsInsert (fsRemove fs1 tempPath) dest art
          restoreVerify m quarantineId entry fs2 dest
    else
      match fsLookup fs entry.quarantinePath with
      | none => (.UNKNOWN_ERROR, m, fs)
      | some art =>
        if entry.isCompressed then
          let fs2 := fsInsert fs dest (m.decompressFn art)
          restoreVerify m quarantineId entry fs2 dest
        else
          -- fs::rename moves the artifact itself to the destination
          let fs2 := fsInsert (fsRemove fs entry.quarantinePath) dest art
          restoreVerify m quarantineId entry fs2 dest

/-- Store configuration for the concrete quarantine scenarios: encryption
and compression disabled (the unencrypted, uncompressed paths). -/
def qmPlain : QuarantineManager :=
  { isInitialized := true
    config := { quarantineRoot := "C:/Q/", encryptFiles := false,
                compressFiles := false, secureDeleteOriginal := false }
    entries := []
    freeSpace := 1000 }

/-- A filesystem holding one malicious file. -/
def qfs0 : FileSystem := [("C:/home/evil.exe", [1, 2, 3])]

/-- Isolating the malicious file from `qfs0`. -/
def c5step1 : QuarantineResult × QuarantineManager × FileSystem :=
  QuarantineFile qmPlain qfs0 "C:/" "C:/home/evil.exe" "T" "AI" 1 "u1"

/-- The quarantined artifact corrupted in place after the isolate. -/
def c5corrupted : FileSystem :=
  fsInsert c5step1.2.2 "C:/Q/u1_evil.quarantine" [9, 9]

/-- Restoring the corrupted artifact. -/
def c5restore : QuarantineResult × QuarantineManager × FileSystem :=
  RestoreFile c5step1.2.1 c5corrupted "u1" "" "s"

/-- C5: evaluation at the failing input.  After a successful isolate of a
file with contents `[1,2,3]`, the quarantined artifact is corrupted to
`[9,9]`; restore then *succeeds* and places the corrupted bytes at the
original path, removing the record and artifact.  The integrity check can
never fire because `QuarantineManager::CalculateSHA256` is a stub that
returns the constant `"stub_hash"` for every file, and the comparison is
performed only after the file has already been moved to its destination. -/
theorem C5_restore_integrity_bug :
    c5step1.1 = QuarantineResult.SUCCESS
    ∧ c5restore.1 = QuarantineResult.SUCCESS
    ∧ fsLookup c5restore.2.2 "C:/home/evil.exe" = some [9, 9]
    ∧ fsLookup c5restore.2.2 "C:/Q/u1_evil.quarantine" = none
    ∧ c5restore.2.1.entries = []
    ∧ ([9, 9] ≠ ([1, 2, 3] : List Nat)) := by
  refine ⟨rfl, rfl, rfl, rfl, rfl, by decide⟩

/-- Isolating the malicious file from `qfs0` (C6 scenario, identical first
step). -/
def c6step1 : QuarantineResult × QuarantineManager × FileSystem :=
  QuarantineFile qmPlain qfs0 "C:/" "C:/home/evil.exe" "T" "AI" 1 "u1"

/-- C6, counterexample.  Immediately after a successful isolate an active
record for the resolved path exists, yet a second isolate call on the very
same path returns `FILE_NOT_FOUND` — not `ALREADY_QUARANTINED` — because
`QuarantineFile` checks `fs::exists` before the duplicate check and the
original file was deleted by the first isolate. -/
theorem C6_counterexample :
    c6step1.1 = QuarantineResult.SUCCESS
    ∧ (FindEntryByOriginalPath c6step1.2.1 "C:/home/evil.exe").isSome = true
    ∧ (QuarantineFile c6step1.2.1 c6step1.2.2 "C:/" "C:/home/evil.exe"
        "T" "AI" 1 "u2").1 = QuarantineResult.FILE_NOT_FOUND
    ∧ QuarantineResult.FILE_NOT_FOUND ≠ QuarantineResult.ALREADY_QUARANTINED := by
  refine ⟨rfl, rfl, rfl, by decide⟩

/-- C6, amended.  While an active record whose stored `originalPath`
equals the call's path string exists: if a file again exists at the
resolved path, the second isolate returns `ALREADY_QUARANTINED` and
changes neither the store's index nor the filesystem; if no file exists
there (the normal state right after the first isolate, which deleted the
original) it returns `FILE_NOT_FOUND`, also with no change.  The duplicate
check compares the raw argument string, so it only fires when the caller
passes the stored absolute path verbatim. -/
theorem C6_duplicate_isolate (m : QuarantineManager) (fs : FileSystem)
    (cwd filePath threatName detectionMethod : String) (threatScore : ℚ)
    (uuid : String)
    (hinit : m.isInitialized = true)
    (hrec : (FindEntryByOriginalPath m filePath).isSome = true) :
    ((fsLookup fs (fsAbsolute cwd filePath)).isSome = true →
      QuarantineFile m fs cwd filePath threatName detectionMethod threatScore uuid
        = (.ALREADY_QUARANTINED, m, fs))
    ∧ (fsLookup fs (fsAbsolute cwd filePath) = none →
      QuarantineFile m fs cwd filePath threatName detectionMethod threatScore uuid
        = (.FILE_NOT_FOUND, m, fs)) := by
  constructor
  · intro hex
    obtain ⟨c, hc⟩ := Option.isSome_iff_exists.mp hex
    obtain ⟨e, he⟩ := Option.isSome_iff_exists.mp hrec
    simp only [QuarantineFile, hinit, hc, he, not_true_eq_false, if_false,
      ite_false]
  · intro hnone
    simp only [QuarantineFile, hinit, hnone, not_true_eq_false, if_false,
      ite_false]

/-- A store with one active record for `C:/a.exe`. -/
def qmDup : QuarantineManager :=
  { isInitialized := true
    config := {}
    entries := [("u1",
      { quarantineId := "u1", originalPath := "C:/a.exe",
        quarantinePath := "C:/Q/x.quarantine", originalHash := "stub_hash" })]
    freeSpace := 1000 }

/-- C6 witness: with an active record for `C:/a.exe`, a second isolate of
that exact path returns `ALREADY_QUARANTINED` (file present) or
`FILE_NOT_FOUND` (file absent), in both cases leaving index and
filesystem unchanged. -/
theorem C6_duplicate_isolate_witness :
    QuarantineFile qmDup [("C:/a.exe", [1])] "C:/" "C:/a.exe" "T" "AI" 1 "u2"
      = (.ALREADY_QUARANTINED, qmDup, [("C:/a.exe", [1])])
    ∧ QuarantineFile qmDup [] "C:/" "C:/a.exe" "T" "AI" 1 "u2"
      = (.FILE_NOT_FOUND, qmDup, []) :=
  ⟨(C6_duplicate_isolate qmDup [("C:/a.exe", [1])] "C:/" "C:/a.exe" "T" "AI"
      1 "u2" rfl rfl).1 rfl,
   (C6_duplicate_isolate qmDup [] "C:/" "C:/a.exe" "T" "AI"
      1 "u2" rfl rfl).2 rfl⟩

/-! ## RealTimeMonitor (src/SmartAV/Core/RealTimeMonitor.cpp)

File readability is modelled by a function from path to `Option Nat`:
`some size` when `fs::file_size` succeeds, `none` when the file is absent,
locked or otherwise unreadable (the call throws and lands in the `catch`
block). -/

/-- `enum class MonitorEventType`. -/
inductive MonitorEventType where
  | FILE_CREATED | FILE_MODIFIED | FILE_RENAMED | FILE_DELETED
  | PROCESS_CREATED | PROCESS_TERMINATED | REGISTRY_MODIFIED | NETWORK_ACTIVITY
  deriving DecidableEq, Repr

/-- `struct MonitorEvent` (process name omitted). -/
structure MonitorEvent where
  type : MonitorEventType := .FILE_CREATED
  path : String := ""
  targetPath : String := ""
  timestamp : Nat := 0
  processId : Nat := 0
  isDirectory : Bool := false
  deriving DecidableEq, Repr

/-- `enum class ResponseAction`. -/
inductive ResponseAction where
  | ALLOW | BLOCK | QUARANTINE | SCAN_AND_DECIDE
  deriving DecidableEq, Repr

/-- `struct MonitorConfig` (the fields the event path reads). -/
structure MonitorConfig where
  autoQuarantine : Bool := true
  scanOnAccess : Bool := true
  maxQueueSize : Nat := 1000
  deriving DecidableEq, Repr

/-- `RealTimeMonitor::MonitorStats` (uptime omitted). -/
structure MonitorStats where
  totalEvents : Nat := 0
  threatsBlocked : Nat := 0
  filesQuarantined : Nat := 0
  scanErrors : Nat := 0
  deriving DecidableEq, Repr

/-- The dangerous-extension set of `RealTimeMonitor::ProcessEvent`. -/
def dangerousExts : List String :=
  [".exe", ".dll", ".scr", ".bat", ".cmd", ".ps1",
   ".vbs", ".js", ".jar", ".zip", ".rar"]

/-- `fs::path(p).extension()`: the suffix of the filename from its last
dot (including the dot), or the empty string when the filename has no
dot. -/
def fileExtension (p : String) : String :=
  let name := baseName p
  let revAfter := name.data.reverse.takeWhile (fun c => c != '.')
  if revAfter.length = name.data.length then ""
  else String.mk ('.' :: revAfter.reverse)

/-- `RealTimeMonitor::ScanAndDecide`: on the success path the current body
always returns `ALLOW` (the FileScanner hookup and entropy check are
commented out / TODO); a filesystem exception (absent or locked file) is
caught, increments the scan-error counter, and fails open with `ALLOW`. -/
def ScanAndDecide (fileSize : String → Option Nat) (stats : MonitorStats)
    (filePath : String) : ResponseAction × MonitorStats :=
  match fileSize filePath with
  | none => (.ALLOW, { stats with scanErrors := stats.scanErrors + 1 })
  | some size =>
    if size = 0 then (.ALLOW, stats)
    else (.ALLOW, stats)

/-- `RealTimeMonitor::ProcessEvent`: only created/modified/renamed file
events are inspected; dangerous extensions always go to scan-and-decide,
others only when scan-on-access is enabled. -/
def ProcessEvent (cfg : MonitorConfig) (fileSize : String → Option Nat)
    (stats : MonitorStats) (event : MonitorEvent) :
    ResponseAction × MonitorStats :=
  if event.type ≠ .FILE_CREATED ∧ event.type ≠ .FILE_MODIFIED
      ∧ event.type ≠ .FILE_RENAMED then
    (.ALLOW, stats)
  else if ¬ dangerousExts.contains (fileExtension event.path) then
    if cfg.scanOnAccess then ScanAndDecide fileSize stats event.path
    else (.ALLOW, stats)
  else ScanAndDecide fileSize stats event.path

/-- One iteration of `RealTimeMonitor::EventProcessorThread` for a
dequeued event with a non-empty path: decide the action, then update the
statistics (total events, threats blocked on `BLOCK`, quarantined files on
`QUARANTINE`).  The `ExecuteResponse` filesystem effect runs only for
non-`ALLOW` actions and is not modelled here. -/
def processOneEvent (cfg : MonitorConfig) (fileSize : String → Option Nat)
    (stats : MonitorStats) (event : MonitorEvent) :
    ResponseAction × MonitorStats :=
  let r := ProcessEvent cfg fileSize stats event
  let stats2 :=
    { r.2 with
      totalEvents := r.2.totalEvents + 1
      threatsBlocked :=
        if r.1 = .BLOCK then r.2.threatsBlocked + 1 else r.2.threatsBlocked
      filesQuarantined :=
        if r.1 = .QUARANTINE then r.2.filesQuarantined + 1
        else r.2.filesQuarantined }
  (r.1, stats2)

/-- The queue push in `RealTimeMonitor::DirectoryMonitorThread`: under the
queue lock, the event is enqueued only while the queue is below
`maxQueueSize`; otherwise it is dropped on the floor — the producer never
waits for space (the push is unconditional control flow, with no blocking
wait on a condition variable). -/
def enqueueEvent (maxQueueSize : Nat) (queue : List MonitorEvent)
    (event : MonitorEvent) : List MonitorEvent :=
  if queue.length < maxQueueSize then queue ++ [event] else queue

/-- C7: when the scan of an event's file fails (file unreadable, locked or
gone), the decided action is `ALLOW`, the scan-error counter is
incremented, and the threats-blocked counter is not incremented. -/
theorem C7_scan_failure_fail_open (cfg : MonitorConfig)
    (fileSize : String → Option Nat) (stats : MonitorStats)
    (event : MonitorEvent)
    (htype : event.type = .FILE_CREATED ∨ event.type = .FILE_MODIFIED
      ∨ event.type = .FILE_RENAMED)
    (hscan : dangerousExts.contains (fileExtension event.path) = true
      ∨ cfg.scanOnAccess = true)
    (hfail : fileSize event.path = none) :
    (processOneEvent cfg fileSize stats event).1 = ResponseAction.ALLOW
    ∧ (processOneEvent cfg fileSize stats event).2.scanErrors
        = stats.scanErrors + 1
    ∧ (processOneEvent cfg fileSize stats event).2.threatsBlocked
        = stats.threatsBlocked := by
  have h1 : ¬ (event.type ≠ .FILE_CREATED ∧ event.type ≠ .FILE_MODIFIED
      ∧ event.type ≠ .FILE_RENAMED) := by
    rcases htype with h | h | h <;> simp [h]
  have hpe : ProcessEvent cfg fileSize stats event
      = (.ALLOW, { stats with scanErrors := stats.scanErrors + 1 }) := by
    by_cases hd : dangerousExts.contains (fileExtension event.path) = true
    · simp only [ProcessEvent, h1, hd, not_true_eq_false, if_false, ite_false,
        ScanAndDecide, hfail]
    · have hsc : cfg.scanOnAccess = true := hscan.resolve_left hd
      simp only [ProcessEvent, h1, hd, not_false_eq_true, if_true, ite_true,
        if_false, ite_false, hsc, ScanAndDecide, hfail, ite_self]
  refine ⟨?_, ?_, ?_⟩ <;> simp [processOneEvent, hpe]

/-- C7 witness: a created `.exe` file whose read fails is allowed, with
the error counter bumped and the blocked counter untouched. -/
theorem C7_scan_failure_fail_open_witness :
    (processOneEvent {} (fun _ => none) {}
      { type := .FILE_CREATED, path := "C:/x.exe" }).1 = ResponseAction.ALLOW
    ∧ (processOneEvent {} (fun _ => none) {}
      { type := .FILE_CREATED, path := "C:/x.exe" }).2.scanErrors = 0 + 1
    ∧ (processOneEvent {} (fun _ => none) {}
      { type := .FILE_CREATED, path := "C:/x.exe" }).2.threatsBlocked = 0 :=
  C7_scan_failure_fail_open {} (fun _ => none) {}
    { type := .FILE_CREATED, path := "C:/x.exe" }
    (Or.inl rfl) (Or.inl rfl) rfl

/-- C8: the shared event queue never exceeds `maxQueueSize` (an enqueue
from a within-bound queue stays within bound), and when the queue is at
capacity the incoming (newest) event is dropped: the queue is returned
unchanged and the producer does not block (the operation is total and
wait-free by construction). -/
theorem C8_queue_bound (maxQueueSize : Nat) (queue : List MonitorEvent)
    (event : MonitorEvent) :
    (queue.length ≤ maxQueueSize →
      (enqueueEvent maxQueueSize queue event).length ≤ maxQueueSize)
    ∧ (queue.length = maxQueueSize →
      enqueueEvent maxQueueSize queue event = queue) := by
  constructor
  · intro h
    unfold enqueueEvent
    split_ifs with hlt
    · simp only [List.length_append, List.length_singleton]
      omega
    · exact h
  · intro h
    unfold enqueueEvent
    rw [if_neg (by omega)]

/-- C8 witness: a full one-slot queue drops the incoming event; an empty
one accepts it. -/
theorem C8_queue_bound_witness :
    enqueueEvent 1 [{ path := "a" }] { path := "b" } = [{ path := "a" }]
    ∧ (enqueueEvent 1 [] { path := "b" }).length ≤ 1 :=
  ⟨(C8_queue_bound 1 [{ path := "a" }] { path := "b" }).2 rfl,
   (C8_queue_bound 1 [] { path := "b" }).1 (by simp)⟩

end SmartAV
